import Mathlib

/-!
Verification of the collision subsystem of the gecl 2D geometry library.

The shape data layer (Point, Vector, Size, Rect, Circle) and every pairwise
collision predicate from src/collision.rs are embedded over the scalar type
Int, which satisfies the trait bounds (Add, Sub, Mul, PartialOrd, Copy) the
Rust source requires and is the scalar used throughout the source test suite.
All arithmetic in the source is componentwise and exact, so each Rust
function becomes a computable Lean function of the same shape.
-/

namespace Gecl

structure Point where
  x : Int
  y : Int

structure Vector where
  x : Int
  y : Int

structure Size where
  width : Int
  height : Int

structure Circle where
  center : Point
  radius : Int

structure Rect where
  origin : Point
  size : Size

/-- Point - Point = Vector, componentwise (point.rs, Sub impl). -/
def Point.subP (a b : Point) : Vector := ⟨a.x - b.x, a.y - b.y⟩

/-- Point - Vector = Point, componentwise (point.rs, Sub impl). -/
def Point.subV (a : Point) (v : Vector) : Point := ⟨a.x - v.x, a.y - v.y⟩

/-- Point + Vector = Point, componentwise (point.rs, Add impl via Into of Size). -/
def Point.addV (a : Point) (v : Vector) : Point := ⟨a.x + v.x, a.y + v.y⟩

/-- The vector constructor function (vector.rs). -/
def vector (x y : Int) : Vector := ⟨x, y⟩

/-- Rect.endpoint = origin + size (rect.rs). -/
def Rect.endpoint (r : Rect) : Point :=
  ⟨r.origin.x + r.size.width, r.origin.y + r.size.height⟩

/-- Circle.is_crossing for a Point (collision.rs lines 27-30). -/
def Circle.is_crossing_point (c : Circle) (p : Point) : Bool :=
  let d := c.center.subP p
  decide (d.x * d.x + d.y * d.y ≤ c.radius * c.radius)

/-- Point.is_crossing for a Circle delegates to the mirror (collision.rs lines 47-49). -/
def Point.is_crossing_circle (p : Point) (c : Circle) : Bool :=
  c.is_crossing_point p

/-- Circle.contains for a Point delegates to is_crossing (collision.rs lines 33-35). -/
def Circle.contains_point (c : Circle) (p : Point) : Bool :=
  c.is_crossing_point p

/-- Point.contains for a Circle is constantly false (collision.rs lines 52-54). -/
def Point.contains_circle (_p : Point) (_c : Circle) : Bool := false

/-- Circle.is_crossing for a Circle (collision.rs lines 66-70). -/
def Circle.is_crossing_circle (a b : Circle) : Bool :=
  let d := a.center.subP b.center
  let r := a.radius + b.radius
  decide (d.x * d.x + d.y * d.y ≤ r * r)

/-- Circle.contains for a Circle (collision.rs lines 73-77). -/
def Circle.contains_circle (a b : Circle) : Bool :=
  let d := a.center.subP b.center
  let r := a.radius - b.radius
  decide (d.x * d.x + d.y * d.y ≤ r * r)

/-- Point.is_crossing for a Rect (collision.rs lines 85-88). -/
def Point.is_crossing_rect (p : Point) (r : Rect) : Bool :=
  let ep := r.endpoint
  decide (p.x ≥ r.origin.x ∧ p.x ≤ ep.x ∧ p.y ≥ r.origin.y ∧ p.y ≤ ep.y)

/-- Point.contains for a Rect is constantly false (collision.rs lines 91-93). -/
def Point.contains_rect (_p : Point) (_r : Rect) : Bool := false

/-- Rect.is_crossing for a Point delegates to the mirror (collision.rs lines 101-103). -/
def Rect.is_crossing_point (r : Rect) (p : Point) : Bool :=
  p.is_crossing_rect r

/-- Rect.contains for a Point delegates to is_crossing (collision.rs lines 106-108). -/
def Rect.contains_point (r : Rect) (p : Point) : Bool :=
  r.is_crossing_point p

/-- Rect.is_crossing for a Rect (collision.rs lines 116-123). -/
def Rect.is_crossing_rect (a b : Rect) : Bool :=
  let aep := a.endpoint
  let bep := b.endpoint
  decide (a.origin.x ≤ bep.x ∧ a.origin.y ≤ bep.y ∧
    aep.x ≥ b.origin.x ∧ aep.y ≥ b.origin.y)

/-- Rect.contains for a Rect (collision.rs lines 126-133). -/
def Rect.contains_rect (a b : Rect) : Bool :=
  let aep := a.endpoint
  let bep := b.endpoint
  decide (a.origin.x ≤ b.origin.x ∧ a.origin.y ≤ b.origin.y ∧
    aep.x ≥ bep.x ∧ aep.y ≥ bep.y)

/-- Rect.is_crossing for a Circle (collision.rs lines 145-175), including the
shadowed dx/dy rebindings of the source: the second corner check reuses the
dy of the first, and the fourth reuses the dy of the third. -/
def Rect.is_crossing_circle (s : Rect) (rhs : Circle) : Bool :=
  let r := vector rhs.radius rhs.radius
  let center := rhs.center
  let origin1 := s.origin.subV r
  let ep1 := (s.endpoint).addV r
  if origin1.x > center.x ∨ origin1.y > center.y ∨ ep1.x < center.x ∨ ep1.y < center.y then
    false
  else
    let origin := s.origin
    let ep := s.endpoint
    let rr := rhs.radius * rhs.radius
    let dx := origin.x - center.x
    let dy := origin.y - center.y
    if origin.x > center.x ∧ origin.y > center.y ∧ dx * dx + dy * dy ≥ rr then
      false
    else
      let dx2 := ep.x - center.x
      if ep.x < center.x ∧ origin.y > center.y ∧ dx2 * dx2 + dy * dy ≥ rr then
        false
      else
        let dx3 := origin.x - center.x
        let dy3 := ep.y - center.y
        if origin.x > center.x ∧ ep.y < center.y ∧ dx3 * dx3 + dy3 * dy3 ≥ rr then
          false
        else
          let dx4 := ep.x - center.x
          if ep.x < center.x ∧ ep.y < center.y ∧ dx4 * dx4 + dy3 * dy3 ≥ rr then
            false
          else
            true

/-- Rect.contains for a Circle (collision.rs lines 178-185). -/
def Rect.contains_circle (s : Rect) (v : Circle) : Bool :=
  let ep := s.endpoint
  let left := v.center.x - v.radius
  let right := v.center.x + v.radius
  let top := v.center.y - v.radius
  let bottom := v.center.y + v.radius
  decide (left ≥ s.origin.x ∧ right ≤ ep.x ∧ top ≥ s.origin.y ∧ bottom ≤ ep.y)

/-- Circle.is_crossing for a Rect delegates to the mirror (collision.rs lines 197-199). -/
def Circle.is_crossing_rect (c : Circle) (r : Rect) : Bool :=
  r.is_crossing_circle c

/-- Circle.contains for a Rect: crossing of the two opposite corners
(collision.rs lines 202-204). -/
def Circle.contains_rect (c : Circle) (r : Rect) : Bool :=
  c.is_crossing_point r.origin && c.is_crossing_point (r.endpoint)

/-- A shape of the collision family: the dispatch over shape kinds. -/
inductive Shape where
  | pt (p : Point)
  | circ (c : Circle)
  | rect (r : Rect)

/-- is_crossing resolved by the pair of shape kinds, exactly the trait impls
present in collision.rs; the Point-with-Point pair has no impl, hence none. -/
def Shape.is_crossing : Shape → Shape → Option Bool
  | .pt _, .pt _ => none
  | .pt p, .circ c => some (p.is_crossing_circle c)
  | .pt p, .rect r => some (p.is_crossing_rect r)
  | .circ c, .pt p => some (c.is_crossing_point p)
  | .circ a, .circ b => some (a.is_crossing_circle b)
  | .circ c, .rect r => some (c.is_crossing_rect r)
  | .rect r, .pt p => some (r.is_crossing_point p)
  | .rect r, .circ c => some (r.is_crossing_circle c)
  | .rect a, .rect b => some (a.is_crossing_rect b)

/-- contains resolved by the pair of shape kinds, exactly the trait impls
present in collision.rs; the Point-with-Point pair has no impl, hence none. -/
def Shape.contains : Shape → Shape → Option Bool
  | .pt _, .pt _ => none
  | .pt p, .circ c => some (p.contains_circle c)
  | .pt p, .rect r => some (p.contains_rect r)
  | .circ c, .pt p => some (c.contains_point p)
  | .circ a, .circ b => some (a.contains_circle b)
  | .circ c, .rect r => some (c.contains_rect r)
  | .rect r, .pt p => some (r.contains_point p)
  | .rect r, .circ c => some (r.contains_circle c)
  | .rect a, .rect b => some (a.contains_rect b)

/-- Non-degeneracy of a shape: positive radius for a circle, positive size
components for a rect; a point is its own non-degenerate extent. -/
def Shape.nondeg : Shape → Prop
  | .pt _ => True
  | .circ c => 0 < c.radius
  | .rect r => 0 < r.size.width ∧ 0 < r.size.height

/-- Weak non-degeneracy of an outer shape: a non-negative radius when the
outer shape is a circle; no condition on a point or rect. -/
def Shape.outerOk : Shape → Prop
  | .pt _ => True
  | .circ c => 0 ≤ c.radius
  | .rect _ => True

/-- Modelled from the spec: the clamp-based reference quantity for the
Rect-with-Circle crossing test. The circle center is clamped componentwise
into the interval from the rect origin to its endpoint and the squared
distance from the clamped point back to the center is returned. -/
def clampDistSq (s : Rect) (c : Circle) : Int :=
  let ep := s.endpoint
  let qx := max s.origin.x (min c.center.x ep.x)
  let qy := max s.origin.y (min c.center.y ep.y)
  (qx - c.center.x) * (qx - c.center.x) + (qy - c.center.y) * (qy - c.center.y)

/-- Modelled from the spec: the clamp-based reference test, true iff the
clamped squared distance is at most radius squared. -/
def clampCrossTest (s : Rect) (c : Circle) : Bool :=
  decide (clampDistSq s c ≤ c.radius * c.radius)

/-- The circle center lies strictly inside one of the four corner regions of
the rect and its squared distance to that corner equals radius squared. -/
def cornerTangent (s : Rect) (c : Circle) : Bool :=
  let o := s.origin
  let e := s.endpoint
  let cx := c.center.x
  let cy := c.center.y
  let rr := c.radius * c.radius
  decide ((cx < o.x ∧ cy < o.y ∧ (o.x - cx) * (o.x - cx) + (o.y - cy) * (o.y - cy) = rr) ∨
    (e.x < cx ∧ cy < o.y ∧ (e.x - cx) * (e.x - cx) + (o.y - cy) * (o.y - cy) = rr) ∨
    (cx < o.x ∧ e.y < cy ∧ (o.x - cx) * (o.x - cx) + (e.y - cy) * (e.y - cy) = rr) ∨
    (e.x < cx ∧ e.y < cy ∧ (e.x - cx) * (e.x - cx) + (e.y - cy) * (e.y - cy) = rr))




theorem mul_self_lt_mul_self_int {a b : Int} (ha : 0 ≤ a) (h : a < b) : a * a < b * b := by
  nlinarith

theorem crossing_circle_char (s : Rect) (c : Circle)
    (hw : 0 ≤ s.size.width) (hh : 0 ≤ s.size.height) (hr : 0 ≤ c.radius) :
    s.is_crossing_circle c = true ↔
      (clampDistSq s c ≤ c.radius * c.radius ∧ cornerTangent s c = false) := by
  obtain ⟨⟨ox, oy⟩, w, h⟩ := s
  obtain ⟨⟨cx, cy⟩, rad⟩ := c
  dsimp only at hw hh hr
  simp only [Rect.is_crossing_circle, Rect.endpoint, Point.subV, Point.addV, Point.subP,
    vector, clampDistSq, cornerTangent, decide_eq_false_iff_not, decide_eq_true_eq]
  try dsimp only
  split_ifs with h1 h2 h3 h4 h5
  · -- fast reject fired
    simp only [Bool.false_eq_true, false_iff, not_and, not_not]
    intro hc
    exfalso
    rcases h1 with hx | hy | hx | hy
    · have hq : ox ≤ max ox (min cx (ox + w)) := le_max_left _ _
      have : rad * rad < (max ox (min cx (ox + w)) - cx) * (max ox (min cx (ox + w)) - cx) :=
        mul_self_lt_mul_self_int hr (by omega)
      nlinarith [mul_self_nonneg (max oy (min cy (oy + h)) - cy)]
    · have hq : oy ≤ max oy (min cy (oy + h)) := le_max_left _ _
      have : rad * rad < (max oy (min cy (oy + h)) - cy) * (max oy (min cy (oy + h)) - cy) :=
        mul_self_lt_mul_self_int hr (by omega)
      nlinarith [mul_self_nonneg (max ox (min cx (ox + w)) - cx)]
    · have hq : max ox (min cx (ox + w)) ≤ ox + w := by omega
      have : rad * rad < (cx - max ox (min cx (ox + w))) * (cx - max ox (min cx (ox + w))) :=
        mul_self_lt_mul_self_int hr (by omega)
      nlinarith [mul_self_nonneg (max oy (min cy (oy + h)) - cy)]
    · have hq : max oy (min cy (oy + h)) ≤ oy + h := by omega
      have : rad * rad < (cy - max oy (min cy (oy + h))) * (cy - max oy (min cy (oy + h))) :=
        mul_self_lt_mul_self_int hr (by omega)
      nlinarith [mul_self_nonneg (max ox (min cx (ox + w)) - cx)]
  · -- corner 1 (origin corner) rejected
    obtain ⟨hx, hy, hD⟩ := h2
    simp only [Bool.false_eq_true, false_iff, not_and, not_not]
    intro hc
    have hqx : max ox (min cx (ox + w)) = ox := by omega
    have hqy : max oy (min cy (oy + h)) = oy := by omega
    rw [hqx, hqy] at hc
    rcases eq_or_lt_of_le hD with heq | hlt
    · exact Or.inl ⟨hx, hy, heq.symm⟩
    · exact absurd hc (by linarith)
  · -- corner 2 (endpoint.x, origin.y) rejected
    obtain ⟨hx, hy, hD⟩ := h3
    simp only [Bool.false_eq_true, false_iff, not_and, not_not]
    intro hc
    have hqx : max ox (min cx (ox + w)) = ox + w := by omega
    have hqy : max oy (min cy (oy + h)) = oy := by omega
    rw [hqx, hqy] at hc
    rcases eq_or_lt_of_le hD with heq | hlt
    · exact Or.inr (Or.inl ⟨hx, hy, heq.symm⟩)
    · exact absurd hc (by linarith)
  · -- corner 3 (origin.x, endpoint.y) rejected
    obtain ⟨hx, hy, hD⟩ := h4
    simp only [Bool.false_eq_true, false_iff, not_and, not_not]
    intro hc
    have hqx : max ox (min cx (ox + w)) = ox := by omega
    have hqy : max oy (min cy (oy + h)) = oy + h := by omega
    rw [hqx, hqy] at hc
    rcases eq_or_lt_of_le hD with heq | hlt
    · exact Or.inr (Or.inr (Or.inl ⟨hx, hy, heq.symm⟩))
    · exact absurd hc (by linarith)
  · -- corner 4 (endpoint corner) rejected
    obtain ⟨hx, hy, hD⟩ := h5
    simp only [Bool.false_eq_true, false_iff, not_and, not_not]
    intro hc
    have hqx : max ox (min cx (ox + w)) = ox + w := by omega
    have hqy : max oy (min cy (oy + h)) = oy + h := by omega
    rw [hqx, hqy] at hc
    rcases eq_or_lt_of_le hD with heq | hlt
    · exact Or.inr (Or.inr (Or.inr ⟨hx, hy, heq.symm⟩))
    · exact absurd hc (by linarith)
  · -- no rejection fired: the shapes cross
    push_neg at h1 h2 h3 h4 h5
    simp only [true_iff]
    constructor
    · -- clamp distance within radius
      by_cases hx1 : cx < ox
      · by_cases hy1 : cy < oy
        · have hqx : max ox (min cx (ox + w)) = ox := by omega
          have hqy : max oy (min cy (oy + h)) = oy := by omega
          rw [hqx, hqy]
          linarith [h2 hx1 hy1]
        · by_cases hy2 : oy + h < cy
          · have hqx : max ox (min cx (ox + w)) = ox := by omega
            have hqy : max oy (min cy (oy + h)) = oy + h := by omega
            rw [hqx, hqy]
            linarith [h4 hx1 hy2]
          · have hqx : max ox (min cx (ox + w)) = ox := by omega
            have hqy : max oy (min cy (oy + h)) = cy := by omega
            rw [hqx, hqy]
            nlinarith [mul_self_le_mul_self (by omega : (0:Int) ≤ ox - cx)
              (by omega : ox - cx ≤ rad)]
      · by_cases hx2 : ox + w < cx
        · by_cases hy1 : cy < oy
          · have hqx : max ox (min cx (ox + w)) = ox + w := by omega
            have hqy : max oy (min cy (oy + h)) = oy := by omega
            rw [hqx, hqy]
            linarith [h3 hx2 hy1]
          · by_cases hy2 : oy + h < cy
            · have hqx : max ox (min cx (ox + w)) = ox + w := by omega
              have hqy : max oy (min cy (oy + h)) = oy + h := by omega
              rw [hqx, hqy]
              linarith [h5 hx2 hy2]
            · have hqx : max ox (min cx (ox + w)) = ox + w := by omega
              have hqy : max oy (min cy (oy + h)) = cy := by omega
              rw [hqx, hqy]
              nlinarith [mul_self_le_mul_self (by omega : (0:Int) ≤ cx - (ox + w))
                (by omega : cx - (ox + w) ≤ rad)]
        · by_cases hy1 : cy < oy
          · have hqx : max ox (min cx (ox + w)) = cx := by omega
            have hqy : max oy (min cy (oy + h)) = oy := by omega
            rw [hqx, hqy]
            nlinarith [mul_self_le_mul_self (by omega : (0:Int) ≤ oy - cy)
              (by omega : oy - cy ≤ rad)]
          · by_cases hy2 : oy + h < cy
            · have hqx : max ox (min cx (ox + w)) = cx := by omega
              have hqy : max oy (min cy (oy + h)) = oy + h := by omega
              rw [hqx, hqy]
              nlinarith [mul_self_le_mul_self (by omega : (0:Int) ≤ cy - (oy + h))
                (by omega : cy - (oy + h) ≤ rad)]
            · have hqx : max ox (min cx (ox + w)) = cx := by omega
              have hqy : max oy (min cy (oy + h)) = cy := by omega
              rw [hqx, hqy]
              nlinarith [mul_self_nonneg rad]
    · -- no corner tangency
      rintro (⟨hx, hy, hD⟩ | ⟨hx, hy, hD⟩ | ⟨hx, hy, hD⟩ | ⟨hx, hy, hD⟩)
      · linarith [h2 hx hy]
      · linarith [h3 hx hy]
      · linarith [h4 hx hy]
      · linarith [h5 hx hy]

/-- Claim C4: for all shapes A and B drawn from the Point, Circle, Rect family
forming a defined pair (every pair except Point with Point), is_crossing(A, B)
equals is_crossing(B, A) on all inputs. -/
theorem C4_crossing_symmetric (a b : Shape) : a.is_crossing b = b.is_crossing a := by
  cases a <;> cases b <;> simp only [Shape.is_crossing]
  case pt.circ p c => rfl
  case circ.pt c p => rfl
  case pt.rect p r => rfl
  case rect.pt r p => rfl
  case circ.rect c r => rfl
  case rect.circ r c => rfl
  case circ.circ a b =>
    simp only [Circle.is_crossing_circle, Point.subP, Option.some_inj]
    rw [decide_eq_decide]
    constructor <;> intro hle <;> nlinarith [hle]
  case rect.rect a b =>
    simp only [Rect.is_crossing_rect, Rect.endpoint, Option.some_inj]
    rw [decide_eq_decide]
    omega

/-- Claim C5 counterexample: a rect with negative size components does not
cross itself, refuting the claim that is_crossing(R, R) holds for every rect
including those with negative size components. -/
theorem C5_counterexample :
    Rect.is_crossing_rect ⟨⟨0, 0⟩, ⟨-1, -1⟩⟩ ⟨⟨0, 0⟩, ⟨-1, -1⟩⟩ = false := by
  decide

/-- Claim C5 (amended): every circle crosses itself, whatever its center and
radius; and every rect with non-negative size components crosses itself. -/
theorem C5_crossing_reflexive :
    (∀ c : Circle, c.is_crossing_circle c = true) ∧
    (∀ r : Rect, 0 ≤ r.size.width → 0 ≤ r.size.height → r.is_crossing_rect r = true) := by
  constructor
  · intro c
    simp only [Circle.is_crossing_circle, Point.subP, decide_eq_true_eq]
    nlinarith [mul_self_nonneg (c.radius + c.radius)]
  · intro r hw hh
    simp only [Rect.is_crossing_rect, Rect.endpoint, decide_eq_true_eq]
    omega

/-- Claim C5 witness: the reflexivity theorem applied to a concrete circle and
a concrete rect with non-negative size. -/
theorem C5_witness :
    Circle.is_crossing_circle ⟨⟨10, 10⟩, 5⟩ ⟨⟨10, 10⟩, 5⟩ = true ∧
    (0 ≤ (3 : Int) ∧ 0 ≤ (4 : Int) ∧
      Rect.is_crossing_rect ⟨⟨1, 2⟩, ⟨3, 4⟩⟩ ⟨⟨1, 2⟩, ⟨3, 4⟩⟩ = true) :=
  ⟨C5_crossing_reflexive.1 ⟨⟨10, 10⟩, 5⟩,
    by decide, by decide, C5_crossing_reflexive.2 ⟨⟨1, 2⟩, ⟨3, 4⟩⟩ (by decide) (by decide)⟩

/-- Claim C6: contains on a pair of circles is true exactly when the squared
distance between the centers is at most the square of the difference of the
radii, the right-hand side being squared regardless of which radius is larger. -/
theorem C6_circle_contains_circle_iff (a b : Circle) :
    a.contains_circle b = true ↔
      (a.center.x - b.center.x) * (a.center.x - b.center.x) +
        (a.center.y - b.center.y) * (a.center.y - b.center.y) ≤
        (a.radius - b.radius) * (a.radius - b.radius) := by
  simp [Circle.contains_circle, Point.subP]

/-- Claim C7: a circle contains a rect exactly when the circle crosses the
rect origin corner and the rect endpoint corner by the circle-point test; no
other corner is examined. -/
theorem C7_circle_contains_rect_iff (c : Circle) (r : Rect) :
    c.contains_rect r = true ↔
      ((c.center.x - r.origin.x) * (c.center.x - r.origin.x) +
          (c.center.y - r.origin.y) * (c.center.y - r.origin.y) ≤
          c.radius * c.radius ∧
        (c.center.x - (r.origin.x + r.size.width)) *
            (c.center.x - (r.origin.x + r.size.width)) +
          (c.center.y - (r.origin.y + r.size.height)) *
            (c.center.y - (r.origin.y + r.size.height)) ≤
          c.radius * c.radius) := by
  simp [Circle.contains_rect, Circle.is_crossing_point, Point.subP, Rect.endpoint]

/-- Claim C8 counterexample: contains of a point in a point is not implemented
at all, so it is not false there; the claim quantifies over every shape kind
including an equal point. -/
theorem C8_counterexample :
    Shape.contains (.pt ⟨0, 0⟩) (.pt ⟨0, 0⟩) = none := by
  simp [Shape.contains]

/-- Claim C8 (amended): for every point and every shape drawn from Circle and
Rect (the kinds for which contains is defined on a point), contains is false,
even for a zero-size rect located at the point. -/
theorem C8_point_contains_nothing (p : Point) (c : Circle) (r : Rect) :
    p.contains_circle c = false ∧ p.contains_rect r = false :=
  ⟨rfl, rfl⟩

/-- Claim C9: against any rect, also degenerate or inverted ones, a circle of
radius zero behaves exactly like its center point. -/
theorem C9_zero_radius_circle_is_point (r : Rect) (p : Point) :
    r.is_crossing_circle ⟨p, 0⟩ = p.is_crossing_rect r := by
  obtain ⟨⟨ox, oy⟩, w, h⟩ := r
  obtain ⟨px, py⟩ := p
  simp only [Rect.is_crossing_circle, Rect.endpoint, Point.subV, Point.addV, vector,
    Point.is_crossing_rect]
  try dsimp only
  split_ifs with h1 h2 h3 h4 h5
  · have hng : ¬ (px ≥ ox ∧ px ≤ ox + w ∧ py ≥ oy ∧ py ≤ oy + h) := by omega
    simp [hng]
  · exfalso
    obtain ⟨h2a, h2b, -⟩ := h2
    push_neg at h1
    omega
  · exfalso
    obtain ⟨h3a, h3b, -⟩ := h3
    push_neg at h1
    omega
  · exfalso
    obtain ⟨h4a, h4b, -⟩ := h4
    push_neg at h1
    omega
  · exfalso
    obtain ⟨h5a, h5b, -⟩ := h5
    push_neg at h1
    omega
  · push_neg at h1
    have hg : px ≥ ox ∧ px ≤ ox + w ∧ py ≥ oy ∧ py ≤ oy + h := by omega
    simp [hg]

/-- Claim C10: every rect contains itself, also degenerate or inverted ones,
since origins are compared with origins and endpoints with endpoints through
non-strict inequalities. -/
theorem C10_rect_contains_rect_reflexive (r : Rect) : r.contains_rect r = true := by
  simp [Rect.contains_rect]

/-- Claim C1 counterexample: with the rect at origin (0,0) and size (10,10)
and the circle centered at (-3,-4) with radius 5, the center is strictly in
the origin corner region at squared distance exactly 25 from the corner; the
code rejects with its non-strict corner comparison while the clamp-based
reference test accepts, so the two tests are not equal on all inputs. -/
theorem C1_counterexample :
    Rect.is_crossing_circle ⟨⟨0, 0⟩, ⟨10, 10⟩⟩ ⟨⟨-3, -4⟩, 5⟩ = false ∧
    clampCrossTest ⟨⟨0, 0⟩, ⟨10, 10⟩⟩ ⟨⟨-3, -4⟩, 5⟩ = true := by
  constructor <;> decide

/-- Claim C1 (amended): for every rect with non-negative size components and
every circle with non-negative radius, is_crossing agrees with the clamp-based
reference test except exactly when the center lies strictly inside a corner
region at squared distance exactly radius squared from that corner, where the
code answers false and the clamp test answers true. -/
theorem C1_crossing_eq_clamp (s : Rect) (c : Circle)
    (hw : 0 ≤ s.size.width) (hh : 0 ≤ s.size.height) (hr : 0 ≤ c.radius) :
    s.is_crossing_circle c = (clampCrossTest s c && !(cornerTangent s c)) := by
  rw [Bool.eq_iff_iff, Bool.and_eq_true, Bool.not_eq_true']
  rw [crossing_circle_char s c hw hh hr]
  simp only [clampCrossTest, decide_eq_true_eq]

/-- Claim C1 witness: the amended equality applied to a concrete rect and
circle with non-negative size and radius. -/
theorem C1_witness :
    (0 ≤ (10 : Int) ∧ 0 ≤ (5 : Int)) ∧
    Rect.is_crossing_circle ⟨⟨10, 10⟩, ⟨10, 10⟩⟩ ⟨⟨20, 25⟩, 5⟩ =
      (clampCrossTest ⟨⟨10, 10⟩, ⟨10, 10⟩⟩ ⟨⟨20, 25⟩, 5⟩ &&
        !(cornerTangent ⟨⟨10, 10⟩, ⟨10, 10⟩⟩ ⟨⟨20, 25⟩, 5⟩)) :=
  ⟨⟨by decide, by decide⟩,
    C1_crossing_eq_clamp ⟨⟨10, 10⟩, ⟨10, 10⟩⟩ ⟨⟨20, 25⟩, 5⟩ (by decide) (by decide) (by decide)⟩

/-- Claim C2: for a rect with non-negative size components and a circle with
non-negative radius whose center is strictly beyond both axis boundaries of
one of the four corners at squared distance exactly radius squared from that
corner, is_crossing returns false: corner rejection uses a non-strict
comparison on the rejecting side. -/
theorem C2_corner_tangency_not_crossing (s : Rect) (c : Circle)
    (hw : 0 ≤ s.size.width) (hh : 0 ≤ s.size.height) (hr : 0 ≤ c.radius)
    (ht : cornerTangent s c = true) :
    s.is_crossing_circle c = false := by
  rcases Bool.eq_false_or_eq_true (s.is_crossing_circle c) with hb | hb
  swap
  · exact hb
  · have hfalse := ((crossing_circle_char s c hw hh hr).mp hb).2
    rw [ht] at hfalse
    exact absurd hfalse (by simp)

/-- Claim C2 witness: the corner tangency theorem applied to the rect at
(0,0) with size (10,10) and the circle at (-3,-4) with radius 5, tangent to
the origin corner. -/
theorem C2_witness :
    (0 ≤ (10 : Int) ∧ 0 ≤ (5 : Int) ∧
      cornerTangent ⟨⟨0, 0⟩, ⟨10, 10⟩⟩ ⟨⟨-3, -4⟩, 5⟩ = true) ∧
    Rect.is_crossing_circle ⟨⟨0, 0⟩, ⟨10, 10⟩⟩ ⟨⟨-3, -4⟩, 5⟩ = false :=
  ⟨⟨by decide, by decide, by decide⟩,
    C2_corner_tangency_not_crossing ⟨⟨0, 0⟩, ⟨10, 10⟩⟩ ⟨⟨-3, -4⟩, 5⟩
      (by decide) (by decide) (by decide) (by decide)⟩

/-- Claim C3 counterexample: an outer circle of negative radius contains the
non-degenerate circle at (5,0) with radius 1 by the squared-difference test,
yet crossing is false there, refuting the claim as stated over all outers. -/
theorem C3_counterexample :
    Shape.nondeg (.circ ⟨⟨5, 0⟩, 1⟩) ∧
    Shape.contains (.circ ⟨⟨0, 0⟩, -5⟩) (.circ ⟨⟨5, 0⟩, 1⟩) = some true ∧
    Shape.is_crossing (.circ ⟨⟨0, 0⟩, -5⟩) (.circ ⟨⟨5, 0⟩, 1⟩) = some false := by
  refine ⟨?_, by decide, by decide⟩
  show (0 : Int) < 1
  norm_num

/-- Claim C3 (amended): for every defined ordered pair of shapes, if the outer
shape is weakly non-degenerate (a circle outer has non-negative radius; no
condition on a point or rect outer), the inner shape is non-degenerate, and
contains(outer, inner) is true, then is_crossing(outer, inner) is true. -/
theorem C3_contains_implies_crossing (a b : Shape)
    (ha : a.outerOk) (hb : b.nondeg) (hab : a.contains b = some true) :
    a.is_crossing b = some true := by
  cases a with
  | pt p =>
    cases b with
    | pt q => exact absurd hab (by simp [Shape.contains])
    | circ c => exact absurd hab (by simp [Shape.contains, Point.contains_circle])
    | rect r => exact absurd hab (by simp [Shape.contains, Point.contains_rect])
  | circ c =>
    cases b with
    | pt q =>
      simp only [Shape.contains, Circle.contains_point] at hab
      simpa only [Shape.is_crossing] using hab
    | circ d =>
      simp only [Shape.contains, Option.some_inj, Circle.contains_circle, Point.subP,
        decide_eq_true_eq] at hab
      simp only [Shape.outerOk] at ha
      simp only [Shape.nondeg] at hb
      simp only [Shape.is_crossing, Option.some_inj, Circle.is_crossing_circle, Point.subP,
        decide_eq_true_eq]
      linarith [hab, mul_nonneg ha hb.le]
    | rect r =>
      obtain ⟨⟨cx, cy⟩, rad⟩ := c
      obtain ⟨⟨ox, oy⟩, w, h⟩ := r
      simp only [Shape.contains, Option.some_inj, Circle.contains_rect,
        Circle.is_crossing_point, Point.subP, Rect.endpoint, Bool.and_eq_true,
        decide_eq_true_eq] at hab
      simp only [Shape.outerOk] at ha
      simp only [Shape.nondeg] at hb
      try dsimp only at hab ha hb
      obtain ⟨h1, h2⟩ := hab
      obtain ⟨hbw, hbh⟩ := hb
      simp only [Shape.is_crossing, Option.some_inj, Circle.is_crossing_rect]
      rw [crossing_circle_char _ _ (by try dsimp only; omega) (by try dsimp only; omega)
        (by try dsimp only; exact ha)]
      constructor
      · simp only [clampDistSq, Rect.endpoint]
        try dsimp only
        by_cases hx1 : cx < ox
        · by_cases hy1 : cy < oy
          · have hqx : max ox (min cx (ox + w)) = ox := by omega
            have hqy : max oy (min cy (oy + h)) = oy := by omega
            rw [hqx, hqy]
            linarith [h1]
          · by_cases hy2 : oy + h < cy
            · have hqx : max ox (min cx (ox + w)) = ox := by omega
              have hqy : max oy (min cy (oy + h)) = oy + h := by omega
              rw [hqx, hqy]
              have e2 : (cy - (oy + h)) * (cy - (oy + h)) ≤ (cy - oy) * (cy - oy) :=
                mul_self_le_mul_self (by omega) (by omega)
              linarith [h1, e2]
            · have hqx : max ox (min cx (ox + w)) = ox := by omega
              have hqy : max oy (min cy (oy + h)) = cy := by omega
              rw [hqx, hqy]
              linarith [h1, mul_self_nonneg (cy - oy)]
        · by_cases hx2 : ox + w < cx
          · by_cases hy1 : cy < oy
            · have hqx : max ox (min cx (ox + w)) = ox + w := by omega
              have hqy : max oy (min cy (oy + h)) = oy := by omega
              rw [hqx, hqy]
              have e2 : (oy - cy) * (oy - cy) ≤ (oy + h - cy) * (oy + h - cy) :=
                mul_self_le_mul_self (by omega) (by omega)
              linarith [h2, e2]
            · by_cases hy2 : oy + h < cy
              · have hqx : max ox (min cx (ox + w)) = ox + w := by omega
                have hqy : max oy (min cy (oy + h)) = oy + h := by omega
                rw [hqx, hqy]
                linarith [h2]
              · have hqx : max ox (min cx (ox + w)) = ox + w := by omega
                have hqy : max oy (min cy (oy + h)) = cy := by omega
                rw [hqx, hqy]
                linarith [h2, mul_self_nonneg (cy - (oy + h))]
          · by_cases hy1 : cy < oy
            · have hqx : max ox (min cx (ox + w)) = cx := by omega
              have hqy : max oy (min cy (oy + h)) = oy := by omega
              rw [hqx, hqy]
              linarith [h1, mul_self_nonneg (cx - ox)]
            · by_cases hy2 : oy + h < cy
              · have hqx : max ox (min cx (ox + w)) = cx := by omega
                have hqy : max oy (min cy (oy + h)) = oy + h := by omega
                rw [hqx, hqy]
                linarith [h2, mul_self_nonneg (cx - (ox + w))]
              · have hqx : max ox (min cx (ox + w)) = cx := by omega
                have hqy : max oy (min cy (oy + h)) = cy := by omega
                rw [hqx, hqy]
                linarith [mul_self_nonneg rad]
      · simp only [cornerTangent, Rect.endpoint, decide_eq_false_iff_not]
        try dsimp only
        rintro (⟨hx, hy, hD⟩ | ⟨hx, hy, hD⟩ | ⟨hx, hy, hD⟩ | ⟨hx, hy, hD⟩)
        · have e1 : (ox - cx) * (ox - cx) < (ox + w - cx) * (ox + w - cx) :=
            mul_self_lt_mul_self_int (by omega) (by omega)
          have e2 : (oy - cy) * (oy - cy) < (oy + h - cy) * (oy + h - cy) :=
            mul_self_lt_mul_self_int (by omega) (by omega)
          linarith [h2, hD, e1, e2]
        · have e2 : (oy - cy) * (oy - cy) < (oy + h - cy) * (oy + h - cy) :=
            mul_self_lt_mul_self_int (by omega) (by omega)
          linarith [h2, hD, e2]
        · have e1 : (ox - cx) * (ox - cx) < (ox + w - cx) * (ox + w - cx) :=
            mul_self_lt_mul_self_int (by omega) (by omega)
          linarith [h2, hD, e1]
        · have e1 : (cx - (ox + w)) * (cx - (ox + w)) < (cx - ox) * (cx - ox) :=
            mul_self_lt_mul_self_int (by omega) (by omega)
          have e2 : (cy - (oy + h)) * (cy - (oy + h)) < (cy - oy) * (cy - oy) :=
            mul_self_lt_mul_self_int (by omega) (by omega)
          linarith [h1, hD, e1, e2]
  | rect r =>
    cases b with
    | pt q =>
      simp only [Shape.contains, Rect.contains_point] at hab
      simpa only [Shape.is_crossing] using hab
    | circ c =>
      obtain ⟨⟨ox, oy⟩, w, h⟩ := r
      obtain ⟨⟨cx, cy⟩, rad⟩ := c
      simp only [Shape.contains, Option.some_inj, Rect.contains_circle, Rect.endpoint,
        decide_eq_true_eq] at hab
      simp only [Shape.nondeg] at hb
      try dsimp only at hab hb
      obtain ⟨hL, hR, hT, hB⟩ := hab
      simp only [Shape.is_crossing, Option.some_inj]
      rw [crossing_circle_char _ _ (by try dsimp only; omega) (by try dsimp only; omega)
        (by try dsimp only; omega)]
      constructor
      · simp only [clampDistSq, Rect.endpoint]
        try dsimp only
        have hqx : max ox (min cx (ox + w)) = cx := by omega
        have hqy : max oy (min cy (oy + h)) = cy := by omega
        rw [hqx, hqy]
        linarith [mul_self_nonneg rad]
      · simp only [cornerTangent, Rect.endpoint, decide_eq_false_iff_not]
        try dsimp only
        rintro (⟨hx, hy, -⟩ | ⟨hx, hy, -⟩ | ⟨hx, hy, -⟩ | ⟨hx, hy, -⟩) <;> omega
    | rect s =>
      obtain ⟨⟨ox, oy⟩, w, h⟩ := r
      obtain ⟨⟨vx, vy⟩, vw, vh⟩ := s
      simp only [Shape.contains, Option.some_inj, Rect.contains_rect, Rect.endpoint,
        decide_eq_true_eq] at hab
      simp only [Shape.nondeg] at hb
      try dsimp only at hab hb
      simp only [Shape.is_crossing, Option.some_inj, Rect.is_crossing_rect, Rect.endpoint,
        decide_eq_true_eq]
      try dsimp only
      omega

/-- Claim C3 witness: a rect containing a non-degenerate circle crosses it. -/
theorem C3_witness :
    (Shape.outerOk (.rect ⟨⟨10, 10⟩, ⟨10, 10⟩⟩) ∧ Shape.nondeg (.circ ⟨⟨15, 15⟩, 5⟩) ∧
      Shape.contains (.rect ⟨⟨10, 10⟩, ⟨10, 10⟩⟩) (.circ ⟨⟨15, 15⟩, 5⟩) = some true) ∧
    Shape.is_crossing (.rect ⟨⟨10, 10⟩, ⟨10, 10⟩⟩) (.circ ⟨⟨15, 15⟩, 5⟩) = some true :=
  ⟨⟨trivial, by show (0 : Int) < 5; norm_num, by decide⟩,
    C3_contains_implies_crossing _ _ trivial (by show (0 : Int) < 5; norm_num) (by decide)⟩

end Gecl
